import Mathlib

/-!
Verification of the test-taking and grading subsystem of an e-learning
platform (FastAPI backend under src/backend, Qt client under src/clients).

The embedding is shallow: database tables become lists of rows inside a
`Store`, each repository method becomes a Lean function on the store, and
each HTTP handler becomes a function from the store and the current user to
the updated store and an `Except` outcome.  Every repository call in the
source commits immediately (`session.commit()` inside each Create/Update),
so a handler that raises after a repository call leaves the rows written so
far in place; the embedding mirrors this by threading the store through the
handler step by step and returning the store as mutated at the point of the
raised exception.

Timestamps are abstracted as natural numbers (the handlers only ever write
the current time and never compare timestamps).  Scores are embedded as
integers: the client computes them by summing integer question weights, and
the backend stores whatever the payload carries without inspecting it.
-/

namespace RppLab5

/-! ## Data model (src/backend/src/models/models.py) -/

/-- Row of the `tests` table: `Test` in models.py (title omitted; the core
never reads it). -/
structure Test where
  id : Nat
  category_id : Nat
  max_attempts : Nat
  deriving Repr, DecidableEq

/-- Row of the `questions` table: `Question` in models.py (text omitted). -/
structure Question where
  id : Nat
  test_id : Nat
  weight : Int
  deriving Repr, DecidableEq

/-- Row of the `answer_options` table: `AnswerOption` in models.py
(text omitted). -/
structure AnswerOption where
  id : Nat
  question_id : Nat
  is_correct : Bool
  deriving Repr, DecidableEq

/-- Row of the `categories` table (only the id matters to the core). -/
structure Category where
  id : Nat
  deriving Repr, DecidableEq

/-- Row of the `articles` table: `Article` in models.py (content omitted). -/
structure Article where
  id : Nat
  category_id : Nat
  deriving Repr, DecidableEq

/-- Row of the `progress` table: `Progress` in models.py. -/
structure Progress where
  id : Nat
  user_id : Nat
  article_id : Nat
  status : String
  updated_at : Nat
  deriving Repr, DecidableEq

/-- Row of the `test_results` table: `TestResult` in models.py
(`taken_at` omitted; no claim reads it). -/
structure TestResult where
  id : Nat
  user_id : Nat
  test_id : Nat
  score : Int
  max_score : Int
  passed : Bool
  deriving Repr, DecidableEq

/-- Row of the `test_answers` table: `TestAnswer` in models.py. -/
structure TestAnswer where
  id : Nat
  test_result_id : Nat
  question_id : Nat
  selected_option_id : Nat
  deriving Repr, DecidableEq

/-- The authenticated caller as the handlers see it:
`current_user.id` and `current_user.role.name`. -/
structure CurrentUser where
  id : Nat
  role : String
  deriving Repr, DecidableEq

/-- The persistent state behind one database session: every table the core
touches, plus the id counters the database assigns on insert. -/
structure Store where
  tests : List Test
  questions : List Question
  options : List AnswerOption
  categories : List Category
  articles : List Article
  progress : List Progress
  test_results : List TestResult
  test_answers : List TestAnswer
  next_result_id : Nat
  next_answer_id : Nat
  deriving Repr

/-- Outcome of a handler: `HTTPException` by status class, and
`internalError` for an uncaught Python exception (an `AttributeError`
surfacing as HTTP 500). -/
inductive ApiError where
  | forbidden
  | notFound (detail : String)
  | badRequest (detail : String)
  | internalError
  deriving Repr, DecidableEq

/-! ## Repositories (src/backend/src/repositories), list semantics:
`select(...).first()` is the head of the filtered list, `.all()` the
filtered list itself. -/

/-- `TestRepository.GetTestById`. -/
def getTestById (st : Store) (test_id : Nat) : Option Test :=
  (st.tests.filter (fun t => t.id == test_id)).head?

/-- `QuestionRepository.ListQuestionsByTest`. -/
def listQuestionsByTest (st : Store) (test_id : Nat) : List Question :=
  st.questions.filter (fun q => q.test_id == test_id)

/-- `AnswerOptionRepository.ListOptionsByQuestion`. -/
def listOptionsByQuestion (st : Store) (question_id : Nat) : List AnswerOption :=
  st.options.filter (fun o => o.question_id == question_id)

/-- `CategoryRepository` lookup used by the client via GET /categories/{id}. -/
def getCategoryById (st : Store) (category_id : Nat) : Option Category :=
  (st.categories.filter (fun c => c.id == category_id)).head?

/-- `ArticleRepository` lookup used via GET /articles/category/{id}. -/
def listArticlesByCategory (st : Store) (category_id : Nat) : List Article :=
  st.articles.filter (fun a => a.category_id == category_id)

/-- `TestResultRepository.GetResultById`. -/
def getResultById (st : Store) (result_id : Nat) : Option TestResult :=
  (st.test_results.filter (fun r => r.id == result_id)).head?

/-- `TestResultRepository.ListResultsByUser`. -/
def listResultsByUser (st : Store) (user_id : Nat) : List TestResult :=
  st.test_results.filter (fun r => r.user_id == user_id)

/-- `TestResultRepository.ListResultsByTest`. -/
def listResultsByTest (st : Store) (test_id : Nat) : List TestResult :=
  st.test_results.filter (fun r => r.test_id == test_id)

/-- `TestAnswerRepository.ListAnswersByResult`. -/
def listAnswersByResult (st : Store) (test_result_id : Nat) : List TestAnswer :=
  st.test_answers.filter (fun a => a.test_result_id == test_result_id)

/-- `ProgressRepository.GetProgressByUserAndArticle`. -/
def getProgressByUserAndArticle (st : Store) (user_id article_id : Nat) :
    Option Progress :=
  (st.progress.filter
    (fun p => p.user_id == user_id && p.article_id == article_id)).head?

/-! ## POST /test-results/ (src/backend/src/api/test_results.py,
`create_test_result`) -/

/-- Pydantic schema `AnswerIn`. -/
structure AnswerIn where
  question_id : Nat
  selected_option_id : Nat
  deriving Repr, DecidableEq

/-- Pydantic schema `TestResultCreate`. -/
structure TestResultCreate where
  user_id : Nat
  test_id : Nat
  score : Int
  max_score : Int
  passed : Bool
  answers : List AnswerIn
  deriving Repr

/-- `TestResultRepository.CreateTestResult`: inserts and commits a new
`test_results` row with a fresh id. -/
def CreateTestResult (st : Store) (user_id test_id : Nat)
    (score max_score : Int) (passed : Bool) : Store × TestResult :=
  let result : TestResult :=
    { id := st.next_result_id, user_id := user_id, test_id := test_id,
      score := score, max_score := max_score, passed := passed }
  ({ st with test_results := st.test_results ++ [result],
             next_result_id := st.next_result_id + 1 }, result)

/-- `TestAnswerRepository.CreateTestAnswer`: inserts and commits a new
`test_answers` row with a fresh id. -/
def CreateTestAnswer (st : Store) (test_result_id question_id
    selected_option_id : Nat) : Store × TestAnswer :=
  let answer : TestAnswer :=
    { id := st.next_answer_id, test_result_id := test_result_id,
      question_id := question_id, selected_option_id := selected_option_id }
  ({ st with test_answers := st.test_answers ++ [answer],
             next_answer_id := st.next_answer_id + 1 }, answer)

/-- The `for ans in payload.answers` loop at the end of `create_test_result`:
each answer is checked against `valid_question_ids` and
`options_by_question` (both computed from the store `st0` as it stood when
`_get_test_full` assembled the snapshot, before the result row was created)
and then committed.  A failed check raises, leaving the store as mutated so
far. -/
def createAnswersLoop (st0 : Store) (full_questions : List Question)
    (result : TestResult) :
    Store → List AnswerIn → Store × Except ApiError TestResult
  | st, [] => (st, .ok result)
  | st, ans :: rest =>
    if !(full_questions.any (fun q => q.id == ans.question_id)) then
      (st, .error (.notFound "Question not found in this test"))
    else if !((listOptionsByQuestion st0 ans.question_id).any
        (fun opt => opt.id == ans.selected_option_id)) then
      (st, .error (.badRequest "Invalid option for question"))
    else
      createAnswersLoop st0 full_questions result
        (CreateTestAnswer st result.id ans.question_id
          ans.selected_option_id).1 rest

/-- `create_test_result` (POST /test-results/): access check, test lookup,
snapshot assembly, result creation, then the per-answer validation loop.
Note the result row is created and committed before any answer is
validated. -/
def create_test_result (st : Store) (current_user : CurrentUser)
    (payload : TestResultCreate) : Store × Except ApiError TestResult :=
  if current_user.role != "admin" && payload.user_id != current_user.id then
    (st, .error .forbidden)
  else if (getTestById st payload.test_id).isNone then
    (st, .error (.notFound "Test not found"))
  else
    let created := CreateTestResult st payload.user_id payload.test_id
      payload.score payload.max_score payload.passed
    createAnswersLoop st (listQuestionsByTest st payload.test_id) created.2
      created.1 payload.answers

/-! ## GET /test-results/ endpoints (src/backend/src/api/test_results.py) -/

/-- `list_test_results` (GET /test-results/): the Python guard is
`current_user.role.name != "admin" and user_id != current_user.id`, where an
absent `user_id` filter (None) also differs from the id. -/
def list_test_results (st : Store) (current_user : CurrentUser)
    (user_id test_id : Option Nat) : Except ApiError (List TestResult) :=
  if current_user.role != "admin" && user_id != some current_user.id then
    .error .forbidden
  else
    match user_id with
    | some uid => .ok (listResultsByUser st uid)
    | none =>
      match test_id with
      | some tid => .ok (listResultsByTest st tid)
      | none => .ok st.test_results

/-- `get_test_result` (GET /test-results/{id}): the ownership guard reads
`result.user_id` before the existence check, so a missing result under a
non-admin caller is an `AttributeError` on `None` (HTTP 500), embedded as
`internalError`; only an admin caller reaches the 404 branch. -/
def get_test_result (st : Store) (current_user : CurrentUser)
    (result_id : Nat) : Except ApiError TestResult :=
  match getResultById st result_id with
  | none =>
    if current_user.role != "admin" then .error .internalError
    else .error (.notFound "Test result not found")
  | some result =>
    if current_user.role != "admin" && result.user_id != current_user.id then
      .error .forbidden
    else .ok result

/-- `list_result_answers` (GET /test-results/{id}/answers): an empty answer
list raises 404 before anything else; otherwise the parent result of the
first answer is fetched and its `user_id` read (an orphaned answer under a
non-admin caller would be an `AttributeError`, embedded as
`internalError`). -/
def list_result_answers (st : Store) (current_user : CurrentUser)
    (result_id : Nat) : Except ApiError (List TestAnswer) :=
  match listAnswersByResult st result_id with
  | [] => .error (.notFound "Test result not found")
  | a :: rest =>
    match getResultById st a.test_result_id with
    | none =>
      if current_user.role != "admin" then .error .internalError
      else .ok (a :: rest)
    | some test_result =>
      if current_user.role != "admin" && test_result.user_id != current_user.id
      then .error .forbidden
      else .ok (a :: rest)

/-! ## PUT /progress/ (src/backend/src/api/progress.py) and
`ProgressRepository.UpdateProgress` -/

/-- Replace the first element satisfying `p` by `f` of it (the Python repo
mutates the single object returned by `.first()` and commits). -/
def updateFirst (p : α → Bool) (f : α → α) : List α → List α
  | [] => []
  | x :: xs => if p x then f x :: xs else x :: updateFirst p f xs

/-- The update `UpdateProgress` applies to the fetched row when the endpoint
passes `status` and leaves `updated_at` to default to the current time. -/
def setStatusNow (status : String) (now : Nat) (p : Progress) : Progress :=
  { p with status := status, updated_at := now }

/-- `ProgressRepository.UpdateProgress` as the endpoint invokes it (a status
and no explicit `updated_at`): `None` when no row matches, otherwise the
first matching row is updated in place and committed. -/
def UpdateProgress (st : Store) (user_id article_id : Nat) (status : String)
    (now : Nat) : Store × Option Progress :=
  match getProgressByUserAndArticle st user_id article_id with
  | none => (st, none)
  | some pr =>
    ({ st with progress := (updateFirst
        (fun p => p.user_id == user_id && p.article_id == article_id)
        (setStatusNow status now) st.progress) },
     some (setStatusNow status now pr))

/-- Pydantic schema `ProgressUpdate`. -/
structure ProgressUpdate where
  user_id : Nat
  article_id : Nat
  status : String
  deriving Repr, DecidableEq

/-- `update_progress` (PUT /progress/): access check, then the repository
update; a missing row is a 404 and the store is unchanged. -/
def update_progress (st : Store) (current_user : CurrentUser)
    (payload : ProgressUpdate) (now : Nat) : Store × Except ApiError Progress :=
  if current_user.role != "admin" && payload.user_id != current_user.id then
    (st, .error .forbidden)
  else
    match UpdateProgress st payload.user_id payload.article_id payload.status
      now with
    | (st1, none) =>
      (st1, .error (.notFound "Progress not found for given user/category"))
    | (st1, some pr) => (st1, .ok pr)

/-! ## Client-side progress propagation
(src/clients/src/qt/widgets/test_widget.py, `send_result`): after a passing
submission the client fetches the test, its category, the articles of that
category, and issues one PUT /progress/ per article with status "done"; the
first failing call aborts the loop, leaving earlier updates in place. -/

/-- The `for article in articles` loop of `send_result`. -/
def propagateLoop (current_user : CurrentUser) (user_id : Nat) (now : Nat) :
    Store → List Article → Store × Except ApiError Unit
  | st, [] => (st, .ok ())
  | st, a :: rest =>
    match update_progress st current_user
      { user_id := user_id, article_id := a.id, status := "done" } now with
    | (st1, .ok _) => propagateLoop current_user user_id now st1 rest
    | (st1, .error e) => (st1, .error e)

/-- The progress-propagation tail of `send_result`, run only when
`body.passed` is true: GET /tests/{id}, GET /categories/{id},
GET /articles/category/{id}, then the update loop. -/
def sendResultPropagation (st : Store) (current_user : CurrentUser)
    (user_id test_id : Nat) (now : Nat) : Store × Except ApiError Unit :=
  match getTestById st test_id with
  | none => (st, .error (.notFound "Test not found"))
  | some t =>
    match getCategoryById st t.category_id with
    | none => (st, .error (.notFound "Category not found"))
    | some _ =>
      propagateLoop current_user user_id now st
        (listArticlesByCategory st t.category_id)

/-! ## Client-side grading
(src/clients/src/qt/widgets/test_widget.py, `load_test` and `on_submit`).
The client renders the snapshot from GET /tests/full/{test_id}: a list of
questions, each carrying its options.  One radio group per question id
records the chosen option; `on_submit` refuses to proceed unless every
group has a selection, so the submitted answers are exactly one option per
question, modelled by a total choice function on question ids. -/

/-- A question as the client sees it in the snapshot JSON: its id, weight
and nested options. -/
structure QuestionView where
  id : Nat
  weight : Int
  options : List AnswerOption
  deriving Repr, DecidableEq

/-- `self.max_score = sum(q["weight"] for q in self.questions)` in
`load_test`. -/
def clientMaxScore (questions : List QuestionView) : Int :=
  (questions.map (fun q => q.weight)).sum

/-- The answer-collection loop of `on_submit`: one entry per question, in
order, with the checked option of that question's radio group. -/
def collectAnswers (questions : List QuestionView) (checked : Nat → Nat) :
    List AnswerIn :=
  questions.map
    (fun q => { question_id := q.id, selected_option_id := checked q.id })

/-- The scoring loop of `on_submit`: for each question, take the first
submitted answer with its id (`next(...)` in the source; the `none` branch
is unreachable for answers built by `collectAnswers`), then add the weight
when some option of the question has that id and `is_correct` (the inner
`for ... break` loop). -/
def computeScore (questions : List QuestionView) (answers : List AnswerIn) :
    Int :=
  questions.foldl
    (fun score q =>
      match answers.find? (fun ans => ans.question_id == q.id) with
      | none => score
      | some ans =>
        if q.options.any
            (fun opt => opt.id == ans.selected_option_id && opt.is_correct)
        then score + q.weight
        else score)
    0

/-- What `on_submit` computes and puts into the POST /test-results/ body:
score, max_score, and `passed = (score >= self.max_score)`. -/
structure SubmitOutcome where
  score : Int
  max_score : Int
  passed : Bool
  deriving Repr, DecidableEq

/-- The grading part of `on_submit`, as a function of the snapshot and the
selections. -/
def on_submit (questions : List QuestionView) (checked : Nat → Nat) :
    SubmitOutcome :=
  let answers := collectAnswers questions checked
  let score := computeScore questions answers
  { score := score, max_score := clientMaxScore questions,
    passed := decide (score ≥ clientMaxScore questions) }

/-- The selected option of `q` under `checked` is marked correct: the
client adds `q.weight` exactly when this holds. -/
def correctChoice (checked : Nat → Nat) (q : QuestionView) : Bool :=
  q.options.any (fun opt => opt.id == checked q.id && opt.is_correct)

/-! ## Invariants and evolution relations -/

/-- The referential invariant of one stored `test_answers` row: its
selected option belongs to its question, and for every stored parent
result row (the row bearing `test_result_id`) its question belongs to the
test that result references. -/
def AnswerRefOk (st : Store) (a : TestAnswer) : Prop :=
  (∃ opt ∈ st.options,
    opt.id = a.selected_option_id ∧ opt.question_id = a.question_id) ∧
  ∀ r ∈ st.test_results, r.id = a.test_result_id →
    ∃ q ∈ st.questions, q.id = a.question_id ∧ q.test_id = r.test_id

/-- Store well-formedness: result ids are below the id counter (fresh ids
never collide), answers reference results below the counter, and every
persisted answer satisfies the referential invariant. -/
structure StoreInv (st : Store) : Prop where
  results_lt : ∀ r ∈ st.test_results, r.id < st.next_result_id
  answers_lt : ∀ a ∈ st.test_answers, a.test_result_id < st.next_result_id
  answers_ok : ∀ a ∈ st.test_answers, AnswerRefOk st a

/-- How one stored progress row can change across the propagation loop over
`arts`: either untouched, or set to "done" at time `now`, and then only for
a row of the submitting user on an article of the list. -/
def RowEvolves (uid now : Nat) (arts : List Article) (p q : Progress) :
    Prop :=
  q = p ∨ (q = setStatusNow "done" now p ∧ p.user_id = uid ∧
    ∃ a ∈ arts, a.id = p.article_id)

/-! ## Concrete fixtures (the worked example of the spec: test 7 in
category 5 with questions of weight 2 and 1, one correct option each). -/

/-- A store with one test, two questions with their options, two articles
(one in the test category, one in another), and no results yet. -/
def sampleStore : Store :=
  { tests := [{ id := 7, category_id := 5, max_attempts := 1 }],
    questions := [{ id := 1, test_id := 7, weight := 2 },
                  { id := 2, test_id := 7, weight := 1 }],
    options := [{ id := 11, question_id := 1, is_correct := true },
                { id := 12, question_id := 1, is_correct := false },
                { id := 21, question_id := 2, is_correct := false },
                { id := 22, question_id := 2, is_correct := true }],
    categories := [{ id := 5 }, { id := 6 }],
    articles := [{ id := 10, category_id := 5 },
                 { id := 30, category_id := 6 }],
    progress := [],
    test_results := [],
    test_answers := [],
    next_result_id := 100,
    next_answer_id := 200 }

/-- A non-admin caller who is user 1. -/
def student1 : CurrentUser := { id := 1, role := "student" }

/-- An admin caller. -/
def adminUser : CurrentUser := { id := 9, role := "admin" }

/-- A submission by user 1 whose second answer references question 99,
which is not a question of test 7. -/
def badQuestionPayload : TestResultCreate :=
  { user_id := 1, test_id := 7, score := 3, max_score := 3, passed := true,
    answers := [{ question_id := 1, selected_option_id := 11 },
                { question_id := 99, selected_option_id := 22 }] }

/-- A fully valid all-correct submission by user 1 on test 7. -/
def goodPayload : TestResultCreate :=
  { user_id := 1, test_id := 7, score := 3, max_score := 3, passed := true,
    answers := [{ question_id := 1, selected_option_id := 11 },
                { question_id := 2, selected_option_id := 22 }] }

/-- `sampleStore` after user 1 already has one recorded attempt on test 7,
whose `max_attempts` is 1. -/
def attemptsStore : Store :=
  { sampleStore with
    test_results := [{ id := 100, user_id := 1, test_id := 7, score := 0,
                       max_score := 3, passed := false }],
    next_result_id := 101 }

/-- `sampleStore` with one stored result (id 50) for user 1 that has no
answer rows. -/
def resultNoAnswersStore : Store :=
  { sampleStore with
    test_results := [{ id := 50, user_id := 1, test_id := 7, score := 0,
                       max_score := 3, passed := false }],
    next_result_id := 101 }

/-- `sampleStore` with progress rows for user 1 on both articles: article
10 in the test category 5 and article 30 in the other category 6. -/
def progressStore : Store :=
  { sampleStore with
    progress := [{ id := 1, user_id := 1, article_id := 10,
                   status := "in_progress", updated_at := 40 },
                 { id := 2, user_id := 1, article_id := 30,
                   status := "in_progress", updated_at := 41 }] }

/-- The client snapshot of test 7 as GET /tests/full/7 serves it. -/
def sampleSnapshot : List QuestionView :=
  [{ id := 1, weight := 2,
     options := [{ id := 11, question_id := 1, is_correct := true },
                 { id := 12, question_id := 1, is_correct := false }] },
   { id := 2, weight := 1,
     options := [{ id := 21, question_id := 2, is_correct := false },
                 { id := 22, question_id := 2, is_correct := true }] }]

/-- The all-correct selection on the sample snapshot. -/
def allCorrectChoice (qid : Nat) : Nat :=
  if qid == 1 then 11 else 22

/-! ## Grading: the client score is the sum of the weights of the correctly
answered questions -/

/-- Looking up a question of the snapshot in the collected answers always
finds the entry built for its id (entries are keyed by question id, so
duplicate ids cannot disagree). -/
theorem find_collectAnswers (questions : List QuestionView)
    (checked : Nat → Nat) {q : QuestionView} (hq : q ∈ questions) :
    (collectAnswers questions checked).find?
        (fun ans => ans.question_id == q.id) =
      some { question_id := q.id, selected_option_id := checked q.id } := by
  induction questions with
  | nil => cases hq
  | cons x xs ih =>
    by_cases hx : x.id = q.id
    · simp only [collectAnswers, List.map_cons]
      rw [List.find?_cons_of_pos]
      · simp [hx]
      · simp [hx]
    · rcases List.mem_cons.mp hq with hqx | hqs
      · exact absurd (hqx ▸ rfl) hx
      · simp only [collectAnswers, List.map_cons]
        rw [List.find?_cons_of_neg]
        · exact ih hqs
        · simp [hx]

/-- The scoring fold, for any answer list in which every question of the
snapshot finds exactly its own selection, accumulates the weights of the
correctly answered questions. -/
theorem scoreLoop_eq (checked : Nat → Nat) (answers : List AnswerIn) :
    ∀ (questions : List QuestionView) (init : Int),
      (∀ q ∈ questions,
        answers.find? (fun ans => ans.question_id == q.id) =
          some { question_id := q.id, selected_option_id := checked q.id }) →
      questions.foldl
        (fun score q =>
          match answers.find? (fun ans => ans.question_id == q.id) with
          | none => score
          | some ans =>
            if q.options.any
                (fun opt => opt.id == ans.selected_option_id && opt.is_correct)
            then score + q.weight
            else score)
        init =
      init +
        ((questions.filter (correctChoice checked)).map
          (fun q => q.weight)).sum := by
  intro questions
  induction questions with
  | nil => intro init _; simp
  | cons x xs ih =>
    intro init h
    rw [List.foldl_cons]
    rw [h x (List.mem_cons_self x xs)]
    have hrest : ∀ q ∈ xs,
        answers.find? (fun ans => ans.question_id == q.id) =
          some { question_id := q.id, selected_option_id := checked q.id } :=
      fun q hq => h q (List.mem_cons_of_mem x hq)
    by_cases hc : correctChoice checked x
    · simp only [correctChoice] at hc
      rw [List.filter_cons_of_pos]
      · simp only [hc, if_true]
        rw [ih (init + x.weight) hrest]
        simp [add_assoc]
      · simpa [correctChoice] using hc
    · simp only [correctChoice, Bool.not_eq_true] at hc
      rw [List.filter_cons_of_neg]
      · simp only [hc, if_false]
        exact ih init hrest
      · simpa [correctChoice] using hc

/-- The score of a full submission built by `on_submit`. -/
theorem computeScore_collect (questions : List QuestionView)
    (checked : Nat → Nat) :
    computeScore questions (collectAnswers questions checked) =
      ((questions.filter (correctChoice checked)).map
        (fun q => q.weight)).sum := by
  have h := scoreLoop_eq checked (collectAnswers questions checked) questions 0
    (fun q hq => find_collectAnswers questions checked hq)
  simpa [computeScore] using h

/-- Claim C2: for every snapshot and every selection of one option per
question, the client score is the sum of the weights of exactly the
questions whose selected option is marked correct, and the client
max_score is the sum of all question weights (it does not depend on the
selection). -/
theorem score_eq_sum_correct_weights (questions : List QuestionView)
    (checked : Nat → Nat) :
    computeScore questions (collectAnswers questions checked) =
      ((questions.filter (correctChoice checked)).map
        (fun q => q.weight)).sum ∧
    clientMaxScore questions = (questions.map (fun q => q.weight)).sum :=
  ⟨computeScore_collect questions checked, rfl⟩

/-- Claim C3: the submission passes exactly when the score reaches
max_score, and an all-correct selection yields passed with score equal to
max_score. -/
theorem passed_iff_perfect_score (questions : List QuestionView)
    (checked : Nat → Nat) :
    ((on_submit questions checked).passed = true ↔
      (on_submit questions checked).score ≥
        (on_submit questions checked).max_score) ∧
    ((∀ q ∈ questions, correctChoice checked q = true) →
      (on_submit questions checked).passed = true ∧
      (on_submit questions checked).score =
        (on_submit questions checked).max_score) := by
  constructor
  · simp [on_submit]
  · intro hall
    have hfilter : questions.filter (correctChoice checked) = questions :=
      List.filter_eq_self.mpr hall
    have hscore : computeScore questions (collectAnswers questions checked) =
        clientMaxScore questions := by
      rw [computeScore_collect, hfilter]; rfl
    constructor
    · simp [on_submit, hscore]
    · simpa [on_submit] using hscore

/-! ## POST /test-results/: ordering of validation and persistence -/

/-- Claim C1 evaluated at its failing input: a submission whose second
answer references question 99, not a question of test 7, is rejected with
a validation error, yet the new TestResult row (and the answer validated
before the failure) are already committed: the result row is created
before the answer validation loop runs, so the claimed all-validation-
before-persistence ordering does not hold in the code. -/
theorem validation_failure_still_persists_result :
    (create_test_result sampleStore student1 badQuestionPayload).2 =
      .error (.notFound "Question not found in this test") ∧
    sampleStore.test_results = [] ∧
    (create_test_result sampleStore student1 badQuestionPayload).1.test_results
      = [{ id := 100, user_id := 1, test_id := 7, score := 3, max_score := 3,
           passed := true }] ∧
    (create_test_result sampleStore student1 badQuestionPayload).1.test_answers
      = [{ id := 200, test_result_id := 100, question_id := 1,
           selected_option_id := 11 }] :=
  ⟨rfl, rfl, rfl, rfl⟩

/-- Claim C6 evaluated: user 1 already has one stored result on test 7,
whose `max_attempts` is 1, yet a further submission is accepted and a
second result row is appended: `create_test_result` never reads
`max_attempts`. -/
theorem max_attempts_not_enforced :
    (listResultsByUser attemptsStore 1).length = 1 ∧
    (getTestById attemptsStore 7).map (fun t => t.max_attempts) = some 1 ∧
    (create_test_result attemptsStore student1 goodPayload).2 =
      .ok { id := 101, user_id := 1, test_id := 7, score := 3, max_score := 3,
            passed := true } ∧
    (create_test_result attemptsStore student1 goodPayload).1.test_results.length
      = 2 :=
  ⟨rfl, rfl, rfl, rfl⟩

/-! ## GET /test-results/ access control and lookup -/

/-- Claim C7: listing results is denied for a non-admin whose user_id
filter is absent or not their own, succeeds for a non-admin filtering on
their own id, and always succeeds for an admin. -/
theorem list_results_access_control (st : Store)
    (current_user : CurrentUser) (user_id test_id : Option Nat) :
    (current_user.role ≠ "admin" → user_id ≠ some current_user.id →
      list_test_results st current_user user_id test_id =
        .error .forbidden) ∧
    (current_user.role ≠ "admin" → user_id = some current_user.id →
      list_test_results st current_user user_id test_id =
        .ok (listResultsByUser st current_user.id)) ∧
    (current_user.role = "admin" →
      ∃ results, list_test_results st current_user user_id test_id =
        .ok results) := by
  refine ⟨?_, ?_, ?_⟩
  · intro hrole hid
    simp [list_test_results, hrole, hid]
  · intro hrole hid
    subst hid
    simp [list_test_results]
  · intro hrole
    unfold list_test_results
    rw [hrole]
    rw [if_neg (by simp)]
    cases user_id with
    | some uid => exact ⟨listResultsByUser st uid, rfl⟩
    | none =>
      cases test_id with
      | some tid => exact ⟨listResultsByTest st tid, rfl⟩
      | none => exact ⟨st.test_results, rfl⟩

/-- Claim C8 evaluated at its failing input: no result with id 42 exists;
an admin caller gets the 404, but a non-admin caller hits the ownership
guard first, which reads `user_id` off `None` (an uncaught AttributeError,
HTTP 500), not the claimed 404.  The 403 half of the claim, for an
existing result owned by someone else, does hold. -/
theorem missing_result_is_500_for_non_admin :
    getResultById sampleStore 42 = none ∧
    get_test_result sampleStore student1 42 = .error .internalError ∧
    get_test_result sampleStore adminUser 42 =
      .error (.notFound "Test result not found") ∧
    get_test_result resultNoAnswersStore { id := 2, role := "student" } 50 =
      .error .forbidden :=
  ⟨rfl, rfl, rfl, rfl⟩

/-! ## GET /test-results/{id}/answers on an empty answer list -/

/-- Claim C10: whenever the stored answer list for a result id is empty,
the endpoint reports 404 "Test result not found" for every caller (in
particular the ownership check is never reached), even if the TestResult
row itself exists. -/
theorem empty_answers_reported_not_found (st : Store)
    (current_user : CurrentUser) (result_id : Nat)
    (h : listAnswersByResult st result_id = []) :
    list_result_answers st current_user result_id =
      .error (.notFound "Test result not found") := by
  unfold list_result_answers
  rw [h]

/-- Claim C10 witness: result 50 exists, has no answers, and its own owner
asking for its answers gets the 404. -/
theorem empty_answers_reported_not_found_witness :
    getResultById resultNoAnswersStore 50 =
      some { id := 50, user_id := 1, test_id := 7, score := 0, max_score := 3,
             passed := false } ∧
    list_result_answers resultNoAnswersStore student1 50 =
      .error (.notFound "Test result not found") :=
  ⟨rfl, empty_answers_reported_not_found resultNoAnswersStore student1 50 rfl⟩

/-! ## The referential invariant of persisted answers (claim C5) -/

/-- The answer-creation loop preserves the store invariant: each answer is
validated against the snapshot questions and options right before it is
committed, and the loop touches only `test_answers` and its id counter. -/
theorem createAnswersLoop_inv (st0 : Store) (fq : List Question)
    (result : TestResult)
    (hfq : ∀ q ∈ fq, q ∈ st0.questions ∧ q.test_id = result.test_id) :
    ∀ (answers : List AnswerIn) (st : Store),
      st.questions = st0.questions → st.options = st0.options →
      (∀ r ∈ st.test_results, r.id < st.next_result_id) →
      (∀ a ∈ st.test_answers, a.test_result_id < st.next_result_id) →
      (∀ a ∈ st.test_answers, AnswerRefOk st a) →
      result.id < st.next_result_id →
      (∀ r ∈ st.test_results, r.id = result.id → r.test_id = result.test_id) →
      StoreInv (createAnswersLoop st0 fq result st answers).1 := by
  intro answers
  induction answers with
  | nil =>
    intro st _ _ h1 h2 h3 _ _
    exact ⟨h1, h2, h3⟩
  | cons ans rest ih =>
    intro st hq ho h1 h2 h3 h4 h5
    unfold createAnswersLoop
    by_cases hvq : fq.any (fun q => q.id == ans.question_id) = true
    · by_cases hvo : (listOptionsByQuestion st0 ans.question_id).any
          (fun opt => opt.id == ans.selected_option_id) = true
      · rw [if_neg (by simp [hvq]), if_neg (by simp [hvo])]
        apply ih
        · exact hq
        · exact ho
        · exact h1
        · intro a ha
          rcases List.mem_append.mp ha with hold | hnew
          · exact h2 a hold
          · rcases List.mem_singleton.mp hnew with rfl
            exact h4
        · intro a ha
          rcases List.mem_append.mp ha with hold | hnew
          · exact h3 a hold
          · rcases List.mem_singleton.mp hnew with rfl
            constructor
            · rcases List.any_eq_true.mp hvo with ⟨opt, hopt, hoid⟩
              rcases List.mem_filter.mp hopt with ⟨hopt0, hoq⟩
              refine ⟨opt, ?_, ?_, ?_⟩
              · show opt ∈ st.options
                rw [ho]; exact hopt0
              · exact (beq_iff_eq.mp hoid)
              · exact (beq_iff_eq.mp hoq)
            · intro r hr hrid
              rcases List.any_eq_true.mp hvq with ⟨q, hqfq, hqid⟩
              rcases hfq q hqfq with ⟨hq0, hqt⟩
              refine ⟨q, ?_, ?_, ?_⟩
              · show q ∈ st.questions
                rw [hq]; exact hq0
              · exact (beq_iff_eq.mp hqid)
              · rw [hqt, ← h5 r hr hrid]
        · exact h4
        · exact h5
      · rw [if_neg (by simp [hvq]), if_pos (by simp [hvo])]
        exact ⟨h1, h2, h3⟩
    · rw [if_pos (by simp [hvq])]
      exact ⟨h1, h2, h3⟩

/-- Claim C5: `create_test_result` preserves the store invariant, whether
it succeeds or is rejected partway through the answer list: every
persisted TestAnswer row keeps its selected option inside its question and
its question inside the test of its parent result. -/
theorem persisted_answers_referential_invariant (st : Store)
    (current_user : CurrentUser) (payload : TestResultCreate)
    (h : StoreInv st) :
    StoreInv (create_test_result st current_user payload).1 := by
  unfold create_test_result
  by_cases hauth : (current_user.role != "admin" &&
      payload.user_id != current_user.id) = true
  · rw [if_pos hauth]; exact h
  · rw [if_neg hauth]
    by_cases htest : (getTestById st payload.test_id).isNone = true
    · rw [if_pos htest]; exact h
    · rw [if_neg htest]
      apply createAnswersLoop_inv
      · intro q hq
        rcases List.mem_filter.mp hq with ⟨hq0, hqt⟩
        exact ⟨hq0, beq_iff_eq.mp hqt⟩
      · rfl
      · rfl
      · intro r hr
        rcases List.mem_append.mp hr with hold | hnew
        · exact Nat.lt_succ_of_lt (h.results_lt r hold)
        · rcases List.mem_singleton.mp hnew with rfl
          exact Nat.lt_succ_self _
      · intro a ha
        exact Nat.lt_succ_of_lt (h.answers_lt a ha)
      · intro a ha
        rcases h.answers_ok a ha with ⟨hopt, hres⟩
        constructor
        · exact hopt
        · intro r hr hrid
          rcases List.mem_append.mp hr with hold | hnew
          · exact hres r hold hrid
          · rcases List.mem_singleton.mp hnew with rfl
            exact absurd hrid (Nat.ne_of_gt (h.answers_lt a ha))
      · exact Nat.lt_succ_self _
      · intro r hr hrid
        rcases List.mem_append.mp hr with hold | hnew
        · exact absurd hrid (Nat.ne_of_lt (h.results_lt r hold))
        · rcases List.mem_singleton.mp hnew with rfl
          rfl

/-- Claim C5 witness: the invariant holds after a full submission on the
sample store (trivially invariant beforehand: it has no results or
answers). -/
theorem persisted_answers_referential_invariant_witness :
    StoreInv (create_test_result sampleStore student1 goodPayload).1 :=
  persisted_answers_referential_invariant sampleStore student1 goodPayload
    ⟨by intro r hr; simp [sampleStore] at hr,
     by intro a ha; simp [sampleStore] at ha,
     by intro a ha; simp [sampleStore] at ha⟩

/-! ## Progress propagation: helper lemmas about `updateFirst` and the
propagation loop -/

/-- `updateFirst` relates the old and new lists pointwise: each element is
kept, or satisfied the predicate and got `f` applied. -/
theorem updateFirst_forall2 {α : Type} (p : α → Bool) (f : α → α) :
    ∀ l : List α,
      List.Forall₂ (fun x y => y = x ∨ (p x = true ∧ y = f x)) l
        (updateFirst p f l) := by
  intro l
  induction l with
  | nil => exact List.Forall₂.nil
  | cons x xs ih =>
    unfold updateFirst
    by_cases hx : p x = true
    · rw [if_pos hx]
      exact List.Forall₂.cons (Or.inr ⟨hx, rfl⟩)
        (List.forall₂_same.mpr (fun y _ => Or.inl rfl))
    · rw [if_neg hx]
      exact List.Forall₂.cons (Or.inl rfl) ih

/-- When some element matches the predicate, `updateFirst` really contains
the image of a matching element. -/
theorem updateFirst_hit {α : Type} {p : α → Bool} {f : α → α} :
    ∀ {l : List α}, (∃ x ∈ l, p x = true) →
      ∃ x ∈ l, p x = true ∧ f x ∈ updateFirst p f l := by
  intro l
  induction l with
  | nil =>
    intro h
    rcases h with ⟨x, hx, _⟩
    cases hx
  | cons y ys ih =>
    intro h
    by_cases hy : p y = true
    · refine ⟨y, List.mem_cons_self y ys, hy, ?_⟩
      unfold updateFirst
      rw [if_pos hy]
      exact List.mem_cons_self _ _
    · rcases h with ⟨x, hx, hpx⟩
      rcases List.mem_cons.mp hx with rfl | hxs
      · exact absurd hpx hy
      · rcases ih ⟨x, hxs, hpx⟩ with ⟨z, hz, hpz, hfz⟩
        refine ⟨z, List.mem_cons_of_mem y hz, hpz, ?_⟩
        unfold updateFirst
        rw [if_neg hy]
        exact List.mem_cons_of_mem y hfz

/-- A `Forall₂` carries membership from the left list to a related element
of the right list. -/
theorem forall2_mem {α β : Type} {r : α → β → Prop} :
    ∀ {l1 : List α} {l2 : List β}, List.Forall₂ r l1 l2 →
      ∀ {a : α}, a ∈ l1 → ∃ b ∈ l2, r a b := by
  intro l1 l2 h
  induction h with
  | nil => intro a ha; cases ha
  | cons hr hrest ih =>
    intro a ha
    rcases List.mem_cons.mp ha with rfl | hmem
    · exact ⟨_, List.mem_cons_self _ _, hr⟩
    · rcases ih hmem with ⟨b, hb, hab⟩
      exact ⟨b, List.mem_cons_of_mem _ hb, hab⟩

/-- Composition of two pointwise relations along a middle list. -/
theorem forall2_compose {α : Type} {r1 r2 r3 : α → α → Prop}
    (hcomp : ∀ a b c, r1 a b → r2 b c → r3 a c) :
    ∀ {l1 l2 l3 : List α}, List.Forall₂ r1 l1 l2 →
      List.Forall₂ r2 l2 l3 → List.Forall₂ r3 l1 l3 := by
  intro l1 l2 l3 h12
  induction h12 generalizing l3 with
  | nil =>
    intro h23
    cases h23
    exact List.Forall₂.nil
  | cons hr hrest ih =>
    intro h23
    cases h23 with
    | cons hr2 hrest2 => exact List.Forall₂.cons (hcomp _ _ _ hr hr2) (ih hrest2)

/-- Setting the same status and timestamp twice is the same as once. -/
theorem setStatusNow_idem (s : String) (now : Nat) (p : Progress) :
    setStatusNow s now (setStatusNow s now p) = setStatusNow s now p := rfl

/-- One PUT /progress/ call relates the old and new progress tables
pointwise: rows are untouched except that the first row of the addressed
(user, article) pair may get the new status and timestamp. -/
theorem update_progress_evolves (st : Store) (cu : CurrentUser)
    (pl : ProgressUpdate) (now : Nat) :
    List.Forall₂
      (fun p q => q = p ∨ (q = setStatusNow pl.status now p ∧
        p.user_id = pl.user_id ∧ p.article_id = pl.article_id))
      st.progress (update_progress st cu pl now).1.progress := by
  unfold update_progress UpdateProgress
  by_cases hauth : (cu.role != "admin" && pl.user_id != cu.id) = true
  · rw [if_pos hauth]
    exact List.forall₂_same.mpr (fun p _ => Or.inl rfl)
  · rw [if_neg hauth]
    cases hg : getProgressByUserAndArticle st pl.user_id pl.article_id with
    | none =>
      exact List.forall₂_same.mpr (fun p _ => Or.inl rfl)
    | some pr =>
      refine (updateFirst_forall2 _ _ st.progress).imp ?_
      intro p q hpq
      rcases hpq with h | ⟨hp, h⟩
      · exact Or.inl h
      · rw [Bool.and_eq_true] at hp
        exact Or.inr ⟨h, beq_iff_eq.mp hp.1, beq_iff_eq.mp hp.2⟩

/-- When the caller is authorized and a row for the addressed
(user, article) pair exists, PUT /progress/ succeeds and replaces the
first matching row in place. -/
theorem update_progress_ok (st : Store) (cu : CurrentUser) (uid aid : Nat)
    (s : String) (now : Nat)
    (hauth : cu.role = "admin" ∨ uid = cu.id)
    (hrow : ∃ p ∈ st.progress, p.user_id = uid ∧ p.article_id = aid) :
    ∃ pr,
      update_progress st cu { user_id := uid, article_id := aid, status := s }
          now =
        ({ st with progress := (updateFirst
            (fun p => p.user_id == uid && p.article_id == aid)
            (setStatusNow s now) st.progress) }, .ok pr) := by
  have hex : ∃ p ∈ st.progress,
      (fun p => p.user_id == uid && p.article_id == aid) p = true := by
    rcases hrow with ⟨p, hp, hpu, hpa⟩
    exact ⟨p, hp, by simp [hpu, hpa]⟩
  have hcond : (cu.role != "admin" && ((uid != cu.id : Bool))) = false := by
    rcases hauth with h | h
    · simp [h]
    · simp [h]
  unfold update_progress UpdateProgress
  rw [if_neg (by simp [hcond])]
  cases hg : getProgressByUserAndArticle st uid aid with
  | none =>
    exfalso
    rcases hex with ⟨p, hp, hpx⟩
    have hmem : p ∈ st.progress.filter
        (fun p => p.user_id == uid && p.article_id == aid) :=
      List.mem_filter.mpr ⟨hp, hpx⟩
    unfold getProgressByUserAndArticle at hg
    rcases hhead : (st.progress.filter
        (fun p => p.user_id == uid && p.article_id == aid)) with _ | ⟨y, ys⟩
    · rw [hhead] at hmem
      cases hmem
    · rw [hhead] at hg
      cases hg
  | some pr =>
    exact ⟨setStatusNow s now pr, rfl⟩

/-- The client propagation loop only rewrites rows of the submitting user
on articles of the processed list, each to "done" at the given time. -/
theorem propagateLoop_evolves (cu : CurrentUser) (uid now : Nat) :
    ∀ (arts : List Article) (st : Store),
      List.Forall₂ (RowEvolves uid now arts) st.progress
        (propagateLoop cu uid now st arts).1.progress := by
  intro arts
  induction arts with
  | nil =>
    intro st
    exact List.forall₂_same.mpr (fun p _ => Or.inl rfl)
  | cons a rest ih =>
    intro st
    have hstep := update_progress_evolves st cu
      { user_id := uid, article_id := a.id, status := "done" } now
    unfold propagateLoop
    rcases hup : update_progress st cu
      { user_id := uid, article_id := a.id, status := "done" } now
      with ⟨st1, res⟩
    rw [hup] at hstep
    cases res with
    | error e =>
      refine hstep.imp ?_
      intro p q h
      rcases h with h | ⟨he, hu, ha⟩
      · exact Or.inl h
      · exact Or.inr ⟨he, hu, ⟨a, List.mem_cons_self a rest, ha.symm⟩⟩
    | ok u =>
      refine forall2_compose ?_ hstep (ih st1)
      intro p q r h1 h2
      rcases h1 with h1 | ⟨h1e, h1u, h1a⟩
      · subst h1
        rcases h2 with h2 | ⟨h2e, h2u, b, hb, hba⟩
        · exact Or.inl h2
        · exact Or.inr ⟨h2e, h2u, ⟨b, List.mem_cons_of_mem a hb, hba⟩⟩
      · subst h1e
        rcases h2 with h2 | ⟨h2e, _, _⟩
        · subst h2
          exact Or.inr ⟨rfl, h1u,
            ⟨a, List.mem_cons_self a rest, h1a.symm⟩⟩
        · rw [setStatusNow_idem] at h2e
          subst h2e
          exact Or.inr ⟨rfl, h1u,
            ⟨a, List.mem_cons_self a rest, h1a.symm⟩⟩

/-- When the caller is authorized and every article of the list already
has a progress row for the user, the propagation loop succeeds and leaves
every such article with a row marked "done" at the given time. -/
theorem propagateLoop_marks_done (cu : CurrentUser) (uid now : Nat)
    (hauth : cu.role = "admin" ∨ uid = cu.id) :
    ∀ (arts : List Article) (st : Store),
      (∀ a ∈ arts, ∃ p ∈ st.progress,
        p.user_id = uid ∧ p.article_id = a.id) →
      (propagateLoop cu uid now st arts).2 = .ok () ∧
      ∀ a ∈ arts,
        ∃ p ∈ (propagateLoop cu uid now st arts).1.progress,
          p.user_id = uid ∧ p.article_id = a.id ∧ p.status = "done" ∧
          p.updated_at = now := by
  intro arts
  induction arts with
  | nil =>
    intro st _
    exact ⟨rfl, by intro a ha; cases ha⟩
  | cons a rest ih =>
    intro st hrows
    rcases update_progress_ok st cu uid a.id "done" now hauth
      (hrows a (List.mem_cons_self a rest)) with ⟨pr, hup⟩
    unfold propagateLoop
    rw [hup]
    have hfa2 := updateFirst_forall2
      (fun p => p.user_id == uid && p.article_id == a.id)
      (setStatusNow "done" now) st.progress
    have hrows1 : ∀ b ∈ rest,
        ∃ p ∈ ({ st with progress := (updateFirst
            (fun p => p.user_id == uid && p.article_id == a.id)
            (setStatusNow "done" now) st.progress) } : Store).progress,
          p.user_id = uid ∧ p.article_id = b.id := by
      intro b hb
      rcases hrows b (List.mem_cons_of_mem a hb) with ⟨p, hp, hpu, hpa⟩
      rcases forall2_mem hfa2 hp with ⟨q, hq, hq2⟩
      rcases hq2 with h | ⟨_, h⟩
      · refine ⟨q, hq, ?_, ?_⟩
        · rw [h]; exact hpu
        · rw [h]; exact hpa
      · refine ⟨q, hq, ?_, ?_⟩
        · rw [h]; exact hpu
        · rw [h]; exact hpa
    rcases ih _ hrows1 with ⟨hok, hdone⟩
    refine ⟨hok, ?_⟩
    intro b hb
    rcases List.mem_cons.mp hb with rfl | hbr
    · rcases hrows b (List.mem_cons_self b rest) with ⟨p, hp, hpu, hpa⟩
      have hhit : ∃ x ∈ st.progress,
          (fun p => p.user_id == uid && p.article_id == b.id) x = true :=
        ⟨p, hp, by simp [hpu, hpa]⟩
      rcases updateFirst_hit (f := setStatusNow "done" now) hhit
        with ⟨x, _, hpx, hmem1⟩
      rw [Bool.and_eq_true] at hpx
      rcases forall2_mem (propagateLoop_evolves cu uid now rest
          { st with progress := (updateFirst
            (fun p => p.user_id == uid && p.article_id == b.id)
            (setStatusNow "done" now) st.progress) }) hmem1
        with ⟨q, hq, hq2⟩
      rcases hq2 with h | ⟨h, _, _⟩
      · refine ⟨q, hq, ?_, ?_, ?_, ?_⟩ <;> rw [h]
        · exact beq_iff_eq.mp hpx.1
        · exact beq_iff_eq.mp hpx.2
        · rfl
        · rfl
      · rw [setStatusNow_idem] at h
        refine ⟨q, hq, ?_, ?_, ?_, ?_⟩ <;> rw [h]
        · exact beq_iff_eq.mp hpx.1
        · exact beq_iff_eq.mp hpx.2
        · rfl
        · rfl
    · exact hdone b hbr

/-! ## Claims C4 and C9: what propagation does and does not touch -/

/-- Claim C4 counterexample: user 1 passes test 7 (category 5, containing
article 10) while no progress rows exist at all; propagation fails with
NotFound and creates nothing, so no row for (1, 10) with status "done"
exists afterwards. -/
theorem propagation_does_not_create_rows :
    listArticlesByCategory sampleStore 5 = [{ id := 10, category_id := 5 }] ∧
    sampleStore.progress = [] ∧
    (sendResultPropagation sampleStore student1 1 7 100).1.progress = [] ∧
    (sendResultPropagation sampleStore student1 1 7 100).2 =
      .error (.notFound "Progress not found for given user/category") :=
  ⟨rfl, rfl, rfl, rfl⟩

/-- Claim C4 as amended: after a passing submission, provided the caller
is authorized and every article of the test category already has a
progress row for the user, propagation succeeds and each such article has
a row with status "done" and a refreshed timestamp; absent rows are never
created (see the counterexample: the loop fails with NotFound instead). -/
theorem propagation_marks_existing_rows_done (st : Store)
    (cu : CurrentUser) (uid test_id now : Nat) (t : Test) (c : Category)
    (ht : getTestById st test_id = some t)
    (hc : getCategoryById st t.category_id = some c)
    (hauth : cu.role = "admin" ∨ uid = cu.id)
    (hrows : ∀ a ∈ listArticlesByCategory st t.category_id,
      ∃ p ∈ st.progress, p.user_id = uid ∧ p.article_id = a.id) :
    (sendResultPropagation st cu uid test_id now).2 = .ok () ∧
    ∀ a ∈ listArticlesByCategory st t.category_id,
      ∃ p ∈ (sendResultPropagation st cu uid test_id now).1.progress,
        p.user_id = uid ∧ p.article_id = a.id ∧ p.status = "done" ∧
        p.updated_at = now := by
  unfold sendResultPropagation
  rw [ht]
  dsimp only
  rw [hc]
  exact propagateLoop_marks_done cu uid now hauth _ st hrows

/-- Claim C4 witness: user 1 passes test 7 with rows for articles 10 and
30 in place; propagation succeeds and every article of category 5 has a
"done" row at the new time. -/
theorem propagation_marks_existing_rows_done_witness :
    (sendResultPropagation progressStore student1 1 7 100).2 = .ok () ∧
    ∀ a ∈ listArticlesByCategory progressStore 5,
      ∃ p ∈ (sendResultPropagation progressStore student1 1 7 100).1.progress,
        p.user_id = 1 ∧ p.article_id = a.id ∧ p.status = "done" ∧
        p.updated_at = 100 :=
  propagation_marks_existing_rows_done progressStore student1 1 7 100
    { id := 7, category_id := 5, max_attempts := 1 } { id := 5 } rfl rfl
    (Or.inr rfl) (by decide)

/-- Claim C9: the propagation step after a passing submission leaves every
progress row untouched whose article does not belong to the passed test
category (pointwise on the progress table, so statuses and timestamps of
all such rows are unchanged). -/
theorem propagation_frame_other_categories (st : Store) (cu : CurrentUser)
    (uid test_id now : Nat) (t : Test)
    (ht : getTestById st test_id = some t) :
    List.Forall₂
      (fun p q =>
        (∀ a ∈ st.articles, a.id = p.article_id →
          a.category_id ≠ t.category_id) → q = p)
      st.progress (sendResultPropagation st cu uid test_id now).1.progress := by
  unfold sendResultPropagation
  rw [ht]
  dsimp only
  cases hc : getCategoryById st t.category_id with
  | none =>
    exact List.forall₂_same.mpr (fun p _ _ => rfl)
  | some c =>
    refine (propagateLoop_evolves cu uid now
      (listArticlesByCategory st t.category_id) st).imp ?_
    intro p q h hother
    rcases h with h | ⟨_, _, b, hb, hbid⟩
    · exact h
    · rcases List.mem_filter.mp hb with ⟨hbst, hbcat⟩
      exact absurd (beq_iff_eq.mp hbcat) (hother b hbst hbid)

/-- Claim C9 witness: with rows for article 10 (category 5 of test 7) and
article 30 (category 6), passing test 7 leaves the category 6 row exactly
as it was. -/
theorem propagation_frame_other_categories_witness :
    List.Forall₂
      (fun p q =>
        (∀ a ∈ progressStore.articles, a.id = p.article_id →
          a.category_id ≠ 5) → q = p)
      progressStore.progress
      (sendResultPropagation progressStore student1 1 7 100).1.progress :=
  propagation_frame_other_categories progressStore student1 1 7 100
    { id := 7, category_id := 5, max_attempts := 1 } rfl

end RppLab5
